import Mathlib

/-!
Shallow embedding of the session-store / crawl-orchestrator core of the
rental-website scraper (source: the Python code embedded in the project's
planning documents — `StateManager`, `PostExtractor`, `FacebookScraper`
in `src/scraper.py` / `src/state_manager.py` / `src/extractor.py`, and
`retry_on_error` from the solution-design document).

Python's ambient `datetime.now()` is modelled by passing the current
`DateTime` explicitly to each operation that reads the clock.  The state
file on disk is modelled by the `stored` field of `SM`; `StateManager.save`
copies the in-memory state into it.
-/

namespace Scraper

/-- A wall-clock instant, the fields `datetime.now()` exposes that the
code reads (`strftime('%Y%m%d_%H%M%S')` and `isoformat()`). -/
structure DateTime where
  year : Nat
  month : Nat
  day : Nat
  hour : Nat
  minute : Nat
  second : Nat
  microsecond : Nat
deriving DecidableEq, Repr

def pad2 (n : Nat) : String :=
  if n < 10 then "0" ++ toString n else toString n

def pad4 (n : Nat) : String :=
  if n < 10 then "000" ++ toString n
  else if n < 100 then "00" ++ toString n
  else if n < 1000 then "0" ++ toString n
  else toString n

def pad6 (n : Nat) : String :=
  if n < 10 then "00000" ++ toString n
  else if n < 100 then "0000" ++ toString n
  else if n < 1000 then "000" ++ toString n
  else if n < 10000 then "00" ++ toString n
  else if n < 100000 then "0" ++ toString n
  else toString n

/-- `datetime.now().strftime('%Y%m%d_%H%M%S')` — the session-id format
used by `StateManager.start_session`.  Second granularity: the
`microsecond` field does not appear. -/
def strftimeSessionId (t : DateTime) : String :=
  pad4 t.year ++ pad2 t.month ++ pad2 t.day ++ "_" ++
    pad2 t.hour ++ pad2 t.minute ++ pad2 t.second

/-- `datetime.now().isoformat()` (microseconds omitted when zero, as in
Python). -/
def isoformat (t : DateTime) : String :=
  pad4 t.year ++ "-" ++ pad2 t.month ++ "-" ++ pad2 t.day ++ "T" ++
    pad2 t.hour ++ ":" ++ pad2 t.minute ++ ":" ++ pad2 t.second ++
    (if t.microsecond = 0 then "" else "." ++ pad6 t.microsecond)

/-- One entry of `state['sessions']` as built by `start_session`. -/
structure Session where
  session_id : String
  start_time : String
  end_time : Option String
  status : String
  total_processed : Nat
  total_failed : Nat
deriving DecidableEq, Repr

/-- One entry of `state['processed_post_ids']` as built by
`mark_processed`. -/
structure ProcessedRecord where
  id : String
  processed_at : String
  session_id : String
deriving DecidableEq, Repr

/-- The JSON aggregate `StateManager.state`
(`version`, `sessions`, `processed_post_ids`, `metadata.total_all_time`). -/
structure RunState where
  version : String
  sessions : List Session
  processed_post_ids : List ProcessedRecord
  total_all_time : Nat
deriving DecidableEq, Repr

/-- The fresh state built by `_load_or_create` when no state file exists. -/
def initialRunState : RunState :=
  { version := "1.0", sessions := [], processed_post_ids := [], total_all_time := 0 }

/-- A `StateManager` instance: the in-memory `state` plus the contents of
the state file on disk (`stored`), which `save` overwrites. -/
structure SM where
  state : RunState
  stored : RunState
deriving DecidableEq, Repr

/-- `StateManager.save`: dump the in-memory state to the state file. -/
def save (sm : SM) : SM :=
  { sm with stored := sm.state }

/-- A `StateManager` freshly constructed over a missing state file (after
`_load_or_create` writes nothing; we let `stored` start as the default so
that `stored` is always a `RunState`). -/
def initSM : SM :=
  { state := initialRunState, stored := initialRunState }

/-- `StateManager.start_session`: build the session id from the current
time, append a new `running` session, save, return the id.  (The Python
code does not touch any existing session here.) -/
def start_session (sm : SM) (now : DateTime) : SM × String :=
  let session_id := strftimeSessionId now
  let session : Session :=
    { session_id := session_id
      start_time := isoformat now
      end_time := none
      status := "running"
      total_processed := 0
      total_failed := 0 }
  let sm := save { sm with state := { sm.state with sessions := sm.state.sessions ++ [session] } }
  (sm, session_id)

/-- The `for … if … break`-pattern over `state['sessions']`: update the
first session matching `p` (if any) and leave the rest alone. -/
def updateFirst (p : Session → Bool) (f : Session → Session) : List Session → List Session
  | [] => []
  | s :: rest => if p s then f s :: rest else s :: updateFirst p f rest

/-- `StateManager.end_session`: set `end_time` and `status` on the first
session whose id matches; if none matches the loop finds nothing and the
call still just saves and returns (no exception). -/
def end_session (sm : SM) (session_id : String) (status : String) (now : DateTime) : SM :=
  save { sm with
    state := { sm.state with
      sessions := updateFirst (fun s => s.session_id == session_id)
        (fun s => { s with end_time := some (isoformat now), status := status })
        sm.state.sessions } }

/-- `StateManager.is_processed`: membership of `post_id` in
`[p['id'] for p in state['processed_post_ids']]`. -/
def is_processed (st : RunState) (post_id : String) : Bool :=
  st.processed_post_ids.any (fun p => p.id == post_id)

/-- `StateManager.mark_processed`: no-op when `is_processed`; otherwise
append a `ProcessedRecord`, bump `total_all_time`, bump the first matching
session's `total_processed`, and save. -/
def mark_processed (sm : SM) (post_id : String) (session_id : String) (now : DateTime) : SM :=
  if is_processed sm.state post_id then sm
  else
    save { sm with
      state := { sm.state with
        processed_post_ids :=
          sm.state.processed_post_ids ++
            [{ id := post_id, processed_at := isoformat now, session_id := session_id }]
        total_all_time := sm.state.total_all_time + 1
        sessions := updateFirst (fun s => s.session_id == session_id)
          (fun s => { s with total_processed := s.total_processed + 1 })
          sm.state.sessions } }

/-- `StateManager.increment_failed`: bump the first matching session's
`total_failed` and save. -/
def increment_failed (sm : SM) (session_id : String) : SM :=
  save { sm with
    state := { sm.state with
      sessions := updateFirst (fun s => s.session_id == session_id)
        (fun s => { s with total_failed := s.total_failed + 1 })
        sm.state.sessions } }

/-- The mutating session-store operations, for stating properties over
arbitrary subsequent call sequences. -/
inductive StoreOp where
  | startSession (now : DateTime)
  | endSession (session_id status : String) (now : DateTime)
  | markProcessed (post_id session_id : String) (now : DateTime)
  | incrementFailed (session_id : String)
deriving DecidableEq, Repr

def applyOp (sm : SM) : StoreOp → SM
  | .startSession now => (start_session sm now).1
  | .endSession sid status now => end_session sm sid status now
  | .markProcessed pid sid now => mark_processed sm pid sid now
  | .incrementFailed sid => increment_failed sm sid

/-! ### Basic lemmas about the store operations -/

lemma mark_processed_of_processed (sm : SM) (fp sid : String) (now : DateTime)
    (h : is_processed sm.state fp = true) :
    mark_processed sm fp sid now = sm := by
  simp [mark_processed, h]

lemma is_processed_mark (sm : SM) (fp sid : String) (now : DateTime) :
    is_processed (mark_processed sm fp sid now).state fp = true := by
  by_cases h : is_processed sm.state fp
  · simpa [mark_processed_of_processed sm fp sid now h] using h
  · simp only [mark_processed, if_neg h]
    simp [is_processed, save]

lemma is_processed_mono_applyOp (sm : SM) (op : StoreOp) (fp : String)
    (h : is_processed sm.state fp = true) :
    is_processed (applyOp sm op).state fp = true := by
  cases op with
  | startSession now =>
      simpa [applyOp, start_session, save, is_processed] using h
  | endSession sid status now =>
      simpa [applyOp, end_session, save, is_processed] using h
  | markProcessed pid sid now =>
      by_cases hp : is_processed sm.state pid
      · simpa [applyOp, mark_processed_of_processed sm pid sid now hp] using h
      · simp only [applyOp, mark_processed, hp, if_false, Bool.false_eq_true, save]
        simp only [is_processed, List.any_append] at h ⊢
        simp [h]
  | incrementFailed sid =>
      simpa [applyOp, increment_failed, save, is_processed] using h

lemma is_processed_mono_foldl (ops : List StoreOp) (sm : SM) (fp : String)
    (h : is_processed sm.state fp = true) :
    is_processed ((ops.foldl applyOp sm).state) fp = true := by
  induction ops generalizing sm with
  | nil => simpa using h
  | cons op rest ih =>
      exact ih (applyOp sm op) (is_processed_mono_applyOp sm op fp h)

/-! ### C1 — crash-recovery status on `start_session` -/

def tEarlier : DateTime := ⟨2025, 10, 20, 18, 30, 0, 0⟩

def tLater : DateTime := ⟨2025, 10, 20, 19, 45, 0, 0⟩

/-- C1 counterexample: starting from a fresh store, `start_session` at
`tEarlier` leaves one session with status `running` (a killed process
never ends it); the next `start_session` call at `tLater` leaves that
session's status as `running`, not `interrupted` — the claimed
crash-recovery scan does not exist in `StateManager.start_session`. -/
theorem start_session_no_crash_recovery_counterexample :
    ((start_session (start_session initSM tEarlier).1 tLater).1.state.sessions.map
        Session.status) = ["running", "running"] ∧
      "running" ≠ "interrupted" := by
  constructor
  · rfl
  · decide

/-- C1 amended: `start_session` never touches existing sessions — it only
appends the new `running` session (built from the current time) and
returns its id.  In particular a session left `running` by a killed
process is still `running` after any later `start_session` call. -/
theorem start_session_appends_only (sm : SM) (now : DateTime) :
    (start_session sm now).1.state.sessions =
        sm.state.sessions ++
          [{ session_id := strftimeSessionId now, start_time := isoformat now,
             end_time := none, status := "running",
             total_processed := 0, total_failed := 0 }] ∧
      (start_session sm now).2 = strftimeSessionId now := by
  constructor <;> rfl

/-! ### C2 — idempotence of `mark_processed` -/

/-- C2: `mark_processed` is idempotent — a second call with the same
fingerprint and session id (at any later time) returns the store
unchanged, both in memory and on disk, so `total_all_time` and the
session's `total_processed` counter are bumped only once. -/
theorem mark_processed_idempotent (sm : SM) (fp sid : String) (t1 t2 : DateTime) :
    mark_processed (mark_processed sm fp sid t1) fp sid t2 =
      mark_processed sm fp sid t1 :=
  mark_processed_of_processed _ fp sid t2 (is_processed_mark sm fp sid t1)

/-! ### C3 — dedup monotonicity -/

/-- C3: after `mark_processed fp`, `is_processed fp` holds, and it keeps
holding after any subsequent sequence of store operations
(`start_session`, `end_session`, `mark_processed`, `increment_failed`)
with any arguments. -/
theorem is_processed_monotone (sm : SM) (fp sid : String) (now : DateTime)
    (ops : List StoreOp) :
    is_processed ((ops.foldl applyOp (mark_processed sm fp sid now)).state) fp = true :=
  is_processed_mono_foldl ops _ fp (is_processed_mark sm fp sid now)

/-! ### `updateFirst` lemmas -/

lemma updateFirst_of_no_match (p : Session → Bool) (f : Session → Session)
    (l : List Session) (h : ∀ s ∈ l, p s = false) :
    updateFirst p f l = l := by
  induction l with
  | nil => rfl
  | cons s rest ih =>
      have hs : p s = false := h s (List.mem_cons_self s rest)
      simp [updateFirst, hs, ih fun x hx => h x (List.mem_cons_of_mem s hx)]

lemma updateFirst_append_match (p : Session → Bool) (f : Session → Session)
    (pre post : List Session) (s : Session)
    (hpre : ∀ x ∈ pre, p x = false) (hs : p s = true) :
    updateFirst p f (pre ++ s :: post) = pre ++ f s :: post := by
  induction pre with
  | nil => simp [updateFirst, hs]
  | cons a rest ih =>
      have ha : p a = false := hpre a (List.mem_cons_self a rest)
      simp [updateFirst, ha, ih fun x hx => hpre x (List.mem_cons_of_mem a hx)]

/-! ### C8 — `end_session` with unknown vs. known session id -/

/-- C8: `end_session` is total (it never throws).  With an unknown
`session_id` the session loop matches nothing, so the whole in-memory
state — every session record included — is unchanged.  With a known id,
the first matching session gets its `end_time` set to the current time
and its `status` set to the given value, all other sessions untouched. -/
theorem end_session_unknown_noop_known_updates (sm : SM) (sid status : String)
    (now : DateTime) :
    ((∀ s ∈ sm.state.sessions, s.session_id ≠ sid) →
        (end_session sm sid status now).state = sm.state) ∧
      (∀ pre s post, sm.state.sessions = pre ++ s :: post →
        (∀ x ∈ pre, x.session_id ≠ sid) → s.session_id = sid →
        (end_session sm sid status now).state.sessions =
          pre ++ { s with end_time := some (isoformat now), status := status } :: post) := by
  constructor
  · intro h
    have hnone : ∀ s ∈ sm.state.sessions, (s.session_id == sid) = false := by
      intro s hs
      simpa [beq_eq_false_iff_ne] using h s hs
    simp [end_session, save, updateFirst_of_no_match _ _ _ hnone]
  · intro pre s post hsess hpre hs
    have hpre' : ∀ x ∈ pre, (x.session_id == sid) = false := by
      intro x hx
      simpa [beq_eq_false_iff_ne] using hpre x hx
    simp [end_session, save, hsess,
      updateFirst_append_match _ _ pre post s hpre' (by simpa using hs)]

/-- Witness for C8 at concrete inputs: a store holding one session whose
id is `20251020_183000`; ending an unknown id leaves the state unchanged,
and ending the known id updates that session. -/
theorem end_session_unknown_noop_known_updates_witness :
    ((∀ s ∈ (start_session initSM tEarlier).1.state.sessions, s.session_id ≠ "nope") →
        (end_session (start_session initSM tEarlier).1 "nope" "completed" tLater).state =
          (start_session initSM tEarlier).1.state) ∧
      ((∀ s ∈ (start_session initSM tEarlier).1.state.sessions, s.session_id ≠ "nope") ∧
        (end_session (start_session initSM tEarlier).1 "nope" "completed" tLater).state =
          (start_session initSM tEarlier).1.state) := by
  have h := (end_session_unknown_noop_known_updates (start_session initSM tEarlier).1
    "nope" "completed" tLater).1
  have hid : ∀ s ∈ (start_session initSM tEarlier).1.state.sessions, s.session_id ≠ "nope" := by
    decide
  exact ⟨h, hid, h hid⟩

/-! ### C10 — `mark_processed` with an unrecorded session id -/

/-- C10: `mark_processed` with a session id matching no recorded session
still appends the `ProcessedRecord` and still bumps `total_all_time`
(assuming the fingerprint is new), while the session list — hence every
`total_processed` counter — is left unchanged; the call is total, nothing
is raised. -/
theorem mark_processed_unknown_session (sm : SM) (fp sid : String) (now : DateTime)
    (hs : ∀ s ∈ sm.state.sessions, s.session_id ≠ sid)
    (hf : is_processed sm.state fp = false) :
    (mark_processed sm fp sid now).state.processed_post_ids =
        sm.state.processed_post_ids ++
          [{ id := fp, processed_at := isoformat now, session_id := sid }] ∧
      (mark_processed sm fp sid now).state.total_all_time =
        sm.state.total_all_time + 1 ∧
      (mark_processed sm fp sid now).state.sessions = sm.state.sessions := by
  have hnone : ∀ s ∈ sm.state.sessions, (s.session_id == sid) = false := by
    intro s hsmem
    simpa [beq_eq_false_iff_ne] using hs s hsmem
  have hf' : ¬ is_processed sm.state fp = true := by simp [hf]
  simp [mark_processed, if_neg hf', save, updateFirst_of_no_match _ _ _ hnone]

/-- Witness for C10: marking fingerprint `p1` under the unrecorded session
id `s0` in a fresh store. -/
theorem mark_processed_unknown_session_witness :
    (mark_processed initSM "p1" "s0" tEarlier).state.processed_post_ids =
        [{ id := "p1", processed_at := isoformat tEarlier, session_id := "s0" }] ∧
      (mark_processed initSM "p1" "s0" tEarlier).state.total_all_time = 0 + 1 ∧
      (mark_processed initSM "p1" "s0" tEarlier).state.sessions = [] := by
  have h := mark_processed_unknown_session initSM "p1" "s0" tEarlier
    (by simp [initSM, initialRunState]) (by simp [is_processed, initSM, initialRunState])
  simpa [initSM, initialRunState] using h

/-! ### C4 — write-through persistence -/

/-- C4: every mutating call ends in `save`, so when it returns the state
file (`stored`) equals the in-memory `RunState`: `start_session`,
`end_session`, `mark_processed` on a new fingerprint, and
`increment_failed` all write through. -/
theorem write_through_persistence (sm : SM) (now : DateTime) (sid status fp : String) :
    ((start_session sm now).1.stored = (start_session sm now).1.state) ∧
      ((end_session sm sid status now).stored = (end_session sm sid status now).state) ∧
      (is_processed sm.state fp = false →
        (mark_processed sm fp sid now).stored = (mark_processed sm fp sid now).state) ∧
      ((increment_failed sm sid).stored = (increment_failed sm sid).state) := by
  refine ⟨rfl, rfl, ?_, rfl⟩
  intro hf
  have hf' : ¬ is_processed sm.state fp = true := by simp [hf]
  simp [mark_processed, if_neg hf', save]

/-- Witness for C4 at a fresh store: fingerprint `p1` is new there, and
`mark_processed` leaves `stored = state`. -/
theorem write_through_persistence_witness :
    is_processed initSM.state "p1" = false ∧
      (mark_processed initSM "p1" "s0" tEarlier).stored =
        (mark_processed initSM "p1" "s0" tEarlier).state := by
  have hf : is_processed initSM.state "p1" = false := by
    simp [is_processed, initSM, initialRunState]
  exact ⟨hf, (write_through_persistence initSM tEarlier "s0" "completed" "p1").2.2.1 hf⟩

/-! ### C9 — session-id uniqueness -/

def tSameSecond : DateTime := ⟨2025, 10, 20, 18, 30, 0, 500000⟩

/-- C9 counterexample: `start_session` derives the session id from
`strftime('%Y%m%d_%H%M%S')`, which has second granularity.  Two calls at
distinct instants of the same wall-clock second (`tEarlier` and
`tSameSecond` differ only in microseconds) generate the same id, so the
second generated id collides with a session already in the store. -/
theorem session_id_collision_counterexample :
    tEarlier ≠ tSameSecond ∧
      ((start_session (start_session initSM tEarlier).1 tSameSecond).1.state.sessions.map
          Session.session_id) =
        ["20251020_183000", "20251020_183000"] := by
  exact ⟨by decide, rfl⟩

def mkStartedSession (t : DateTime) : Session :=
  { session_id := strftimeSessionId t, start_time := isoformat t,
    end_time := none, status := "running", total_processed := 0, total_failed := 0 }

def runSessions (ts : List DateTime) : SM :=
  ts.foldl (fun sm t => (start_session sm t).1) initSM

lemma foldl_start_session_sessions (ts : List DateTime) (sm : SM) :
    (ts.foldl (fun sm t => (start_session sm t).1) sm).state.sessions =
      sm.state.sessions ++ ts.map mkStartedSession := by
  induction ts generalizing sm with
  | nil => simp
  | cons t rest ih =>
      rw [List.foldl_cons, ih]
      simp [start_session, save, mkStartedSession]

/-- C9 amended: the session id is exactly the second-granularity
timestamp of the call, so ids are pairwise distinct provided the
`%Y%m%d_%H%M%S` renderings of the call times are pairwise distinct
(which two calls within one second violate). -/
theorem session_ids_nodup_of_distinct_seconds (ts : List DateTime)
    (h : (ts.map strftimeSessionId).Nodup) :
    ((runSessions ts).state.sessions.map Session.session_id).Nodup := by
  have hs : (runSessions ts).state.sessions = ts.map mkStartedSession := by
    simpa [initSM, initialRunState] using foldl_start_session_sessions ts initSM
  rw [hs, List.map_map]
  simpa [Function.comp, mkStartedSession] using h

/-- Witness for C9 (amended) on two calls in distinct seconds. -/
theorem session_ids_nodup_of_distinct_seconds_witness :
    (([tEarlier, tLater].map strftimeSessionId).Nodup) ∧
      ((runSessions [tEarlier, tLater]).state.sessions.map Session.session_id).Nodup := by
  have h : ([tEarlier, tLater].map strftimeSessionId).Nodup := by decide
  exact ⟨h, session_ids_nodup_of_distinct_seconds [tEarlier, tLater] h⟩

/-! ### Fingerprint engine — `PostExtractor._extract_post_id` -/

/-- The two things `_extract_post_id` reads off a post element: the
`href` of the first `a[href*="/posts/"]` link when the DOM query finds
one, and the text that `_extract_text` returns for the element. -/
structure PostElement where
  link_href : Option String
  text : String
deriving DecidableEq, Repr

def postsPat : List Char := "/posts/".toList

/-- One anchored step of `re.search(r'/posts/(\d+)', href)`: does the
regex match starting exactly here?  If so, the capture group is the
maximal digit run after `/posts/` (the regex needs at least one digit). -/
def matchPostsAt (cs : List Char) : Option (List Char) :=
  if postsPat.isPrefixOf cs then
    let ds := (cs.drop postsPat.length).takeWhile Char.isDigit
    if ds.isEmpty then none else some ds
  else none

/-- `re.search`: try the anchored match at every position, left to
right, returning the first capture. -/
def searchPostsId : List Char → Option (List Char)
  | [] => none
  | c :: rest =>
      match matchPostsAt (c :: rest) with
      | some ds => some ds
      | none => searchPostsId rest

/-- `PostExtractor._extract_post_id`, with `hashlib.md5(...).hexdigest()`
abstracted as the pure digest function `md5hex` (the claims do not
depend on the md5 algorithm itself, only on its being a deterministic
function of the text): if the element has a `/posts/` link whose href
matches `/posts/(\d+)`, return the captured digits; otherwise return the
first 16 hex characters of the digest of the element's text. -/
def extract_post_id (md5hex : String → String) (el : PostElement) : String :=
  match el.link_href with
  | some href =>
      match searchPostsId href.data with
      | some ds => String.mk ds
      | none => (md5hex el.text).take 16
  | none => (md5hex el.text).take 16

/-- The "declared ID" of an element: the id the URL regex extracts, when
it matches. -/
def declaredPostId (el : PostElement) : Option String :=
  el.link_href.bind fun href => (searchPostsId href.data).map fun ds => String.mk ds

lemma matchPostsAt_ne_nil (cs ds : List Char) (h : matchPostsAt cs = some ds) :
    ds ≠ [] := by
  unfold matchPostsAt at h
  by_cases hp : postsPat.isPrefixOf cs
  · simp only [hp, if_true] at h
    by_cases he : ((cs.drop postsPat.length).takeWhile Char.isDigit).isEmpty
    · simp [he] at h
    · simp only [he, if_false, Option.some.injEq, Bool.false_eq_true] at h
      subst h
      simpa [List.isEmpty_iff] using he
  · simp [hp] at h

lemma searchPostsId_ne_nil (cs ds : List Char) (h : searchPostsId cs = some ds) :
    ds ≠ [] := by
  induction cs with
  | nil => simp [searchPostsId] at h
  | cons c rest ih =>
      unfold searchPostsId at h
      cases hm : matchPostsAt (c :: rest) with
      | some ds2 =>
          rw [hm] at h
          cases h
          exact matchPostsAt_ne_nil _ _ hm
      | none =>
          rw [hm] at h
          exact ih h

/-- C7: `extract_post_id` is a pure function of the element — identical
inputs give identical output — and it splits on the declared id: when
the URL regex yields an id, that (necessarily non-empty) id is returned
verbatim; otherwise the result is the (truncated) digest of the
element's text. -/
theorem extract_post_id_spec (md5hex : String → String) (el : PostElement) :
    (∀ d, declaredPostId el = some d → d ≠ "" ∧ extract_post_id md5hex el = d) ∧
      (declaredPostId el = none →
        extract_post_id md5hex el = (md5hex el.text).take 16) ∧
      (∀ el2, el = el2 → extract_post_id md5hex el = extract_post_id md5hex el2) := by
  obtain ⟨lh, tx⟩ := el
  cases lh with
  | none =>
      refine ⟨?_, ?_, ?_⟩
      · intro d hd
        simp [declaredPostId] at hd
      · intro _
        rfl
      · intro el2 he
        rw [he]
  | some href =>
      cases hsearch : searchPostsId href.data with
      | none =>
          refine ⟨?_, ?_, ?_⟩
          · intro d hd
            simp [declaredPostId, hsearch] at hd
          · intro _
            simp [extract_post_id, hsearch]
          · intro el2 he
            rw [he]
      | some ds =>
          refine ⟨?_, ?_, ?_⟩
          · intro d hd
            have hd' : String.mk ds = d := by
              simpa [declaredPostId, hsearch] using hd
            subst hd'
            refine ⟨?_, by simp [extract_post_id, hsearch]⟩
            have hne := searchPostsId_ne_nil _ _ hsearch
            simpa [String.ext_iff] using hne
          · intro hd
            simp [declaredPostId, hsearch] at hd
          · intro el2 he
            rw [he]

def elWithDeclared : PostElement :=
  { link_href := some "https://www.facebook.com/groups/rental/posts/10234567890/?ref=feed"
    text := "3房2廳，近捷運站" }

/-- Witness for C7: on a concrete element whose link matches the
`/posts/(\d+)` pattern, the declared id `10234567890` is returned
verbatim (here with the identity function standing in for the digest,
which that branch never consults). -/
theorem extract_post_id_spec_witness :
    declaredPostId elWithDeclared = some "10234567890" ∧
      "10234567890" ≠ "" ∧
      extract_post_id (fun s => s) elWithDeclared = "10234567890" := by
  have hd : declaredPostId elWithDeclared = some "10234567890" := by decide
  have h := (extract_post_id_spec (fun s => s) elWithDeclared).1 "10234567890" hd
  exact ⟨hd, h.1, h.2⟩

/-! ### Retry controller — `retry_on_error` (solution-design pseudocode) -/

/-- What one execution of the wrapped operation does: return a value,
raise a `RetryableError`, or raise a `FatalError` (error messages are
strings). -/
inductive AttemptOutcome (α : Type) where
  | success (value : α)
  | retryable (err : String)
  | fatal (err : String)
deriving DecidableEq, Repr

/-- How `retry_on_error` itself can fail: re-raising the `FatalError`,
or raising `MaxRetriesExceeded()` — which carries no payload. -/
inductive RetryFailure where
  | fatalError (err : String)
  | maxRetriesExceeded
deriving DecidableEq, Repr

/-- The `for attempt in range(max_retries)` loop of `retry_on_error`,
started at `attempt` with `remaining` iterations left.  The operation is
modelled as a function of the attempt index; alongside the outcome we
collect the `time.sleep(2 ** attempt)` durations, in order. -/
def retryGo {α : Type} (op : Nat → AttemptOutcome α) (attempt : Nat) :
    Nat → Except RetryFailure α × List Nat
  | 0 => (Except.error RetryFailure.maxRetriesExceeded, [])
  | remaining + 1 =>
      match op attempt with
      | .success v => (Except.ok v, [])
      | .retryable _ =>
          let r := retryGo op (attempt + 1) remaining
          (r.1, 2 ^ attempt :: r.2)
      | .fatal e => (Except.error (RetryFailure.fatalError e), [])

/-- `retry_on_error(func, max_retries=3)` from the solution-design
document (`max_retries` defaults to 3 at the call sites). -/
def retry_on_error {α : Type} (op : Nat → AttemptOutcome α) (max_retries : Nat) :
    Except RetryFailure α × List Nat :=
  retryGo op 0 max_retries

/-- C6 counterexample: exhausting the retries does **not** return the
last error — the code raises a payload-free `MaxRetriesExceeded()`, so
the result is the same whatever the last error was ("boom" vs "zap"). -/
theorem retry_discards_last_error_counterexample :
    (retry_on_error (fun _ => (AttemptOutcome.retryable "boom" : AttemptOutcome Nat)) 3).1 =
        Except.error RetryFailure.maxRetriesExceeded ∧
      (retry_on_error (fun _ => (AttemptOutcome.retryable "boom" : AttemptOutcome Nat)) 3).1 =
        (retry_on_error (fun _ => (AttemptOutcome.retryable "zap" : AttemptOutcome Nat)) 3).1 := by
  exact ⟨rfl, rfl⟩

lemma retryGo_all_retryable {α : Type} (op : Nat → AttemptOutcome α) (errs : Nat → String)
    (hop : ∀ i, op i = AttemptOutcome.retryable (errs i)) :
    ∀ remaining attempt, retryGo op attempt remaining =
      (Except.error RetryFailure.maxRetriesExceeded,
        (List.range remaining).map fun i => 2 ^ (attempt + i)) := by
  intro remaining
  induction remaining with
  | zero => intro attempt; simp [retryGo]
  | succ r ih =>
      intro attempt
      rw [retryGo, hop attempt]
      simp only [ih (attempt + 1)]
      refine Prod.ext rfl ?_
      simp only [List.range_succ_eq_map, List.map_cons, List.map_map]
      refine congrArg₂ List.cons (by simp) ?_
      refine List.map_congr_left ?_
      intro i _
      simp [Function.comp]
      ring_nf

/-- C6 amended: on success the value is returned at once with no sleep;
a `Fatal` failure is re-raised at once, never retried; an operation that
keeps failing `Retryable` is attempted `max_retries` times in all
(default 3, i.e. up to 2 retries after the first attempt), sleeping
`2 ^ attempt` (base 1 second, exponentially increasing) after each
failed attempt — but exhaustion raises `MaxRetriesExceeded`, which does
not carry the last error. -/
theorem retry_on_error_contract {α : Type} (op : Nat → AttemptOutcome α)
    (max_retries : Nat) (v : α) (e : String) (errs : Nat → String) :
    (0 < max_retries → op 0 = AttemptOutcome.success v →
        retry_on_error op max_retries = (Except.ok v, [])) ∧
      (0 < max_retries → op 0 = AttemptOutcome.fatal e →
        retry_on_error op max_retries = (Except.error (RetryFailure.fatalError e), [])) ∧
      ((∀ i, op i = AttemptOutcome.retryable (errs i)) →
        retry_on_error op max_retries =
          (Except.error RetryFailure.maxRetriesExceeded,
            (List.range max_retries).map fun i => 2 ^ i)) := by
  refine ⟨?_, ?_, ?_⟩
  · intro hpos h0
    obtain ⟨r, rfl⟩ := Nat.exists_eq_succ_of_ne_zero (Nat.pos_iff_ne_zero.mp hpos)
    rw [retry_on_error, retryGo, h0]
  · intro hpos h0
    obtain ⟨r, rfl⟩ := Nat.exists_eq_succ_of_ne_zero (Nat.pos_iff_ne_zero.mp hpos)
    rw [retry_on_error, retryGo, h0]
  · intro hop
    rw [retry_on_error, retryGo_all_retryable op errs hop max_retries 0]
    simp

/-- Witness for C6 (amended), with the default `max_retries = 3` and an
operation that always raises a retryable error: three attempts, sleeps
`[1, 2, 4]`, then `MaxRetriesExceeded`. -/
theorem retry_on_error_contract_witness :
    (∀ i : Nat, (fun _ : Nat => (AttemptOutcome.retryable "boom" : AttemptOutcome Nat)) i =
        AttemptOutcome.retryable ((fun _ : Nat => "boom") i)) ∧
      retry_on_error (fun _ : Nat => (AttemptOutcome.retryable "boom" : AttemptOutcome Nat)) 3 =
        (Except.error RetryFailure.maxRetriesExceeded, [1, 2, 4]) := by
  have hop : ∀ i : Nat, (fun _ : Nat => (AttemptOutcome.retryable "boom" : AttemptOutcome Nat)) i =
      AttemptOutcome.retryable ((fun _ : Nat => "boom") i) := fun _ => rfl
  have h := (retry_on_error_contract (fun _ => (AttemptOutcome.retryable "boom" : AttemptOutcome Nat))
    3 0 "e" (fun _ => "boom")).2.2 hop
  refine ⟨hop, ?_⟩
  rw [h]
  rfl

/-! ### Crawl orchestrator — the per-batch item loop of
`FacebookScraper._scrape_loop` -/

/-- What `PostExtractor.extract_post_data` returns for one post element
(when extraction does not fail). -/
structure PostData where
  id : String
  text : String
  url : String
  timestamp : Option String
deriving DecidableEq, Repr

/-- The `for post_elem in posts` body of `_scrape_loop`, for one batch:
each element yields `extract_post_data`'s result (`none` models a failed
extraction, skipped by `if not post_data: continue`); the `_save_post`
call is modelled by the `archive` oracle.  Returns the final store, the
final `processed_count`, and — in order — the posts for which
`_save_post` was actually attempted. -/
def scrape_batch (sid : String) (max_posts : Nat) (archive : PostData → Bool)
    (now : DateTime) : SM → Nat → List (Option PostData) → SM × Nat × List PostData
  | sm, processed_count, [] => (sm, processed_count, [])
  | sm, processed_count, p :: rest =>
      if processed_count ≥ max_posts then (sm, processed_count, [])
      else
        match p with
        | none => scrape_batch sid max_posts archive now sm processed_count rest
        | some pd =>
            if is_processed sm.state pd.id then
              scrape_batch sid max_posts archive now sm processed_count rest
            else if archive pd then
              let r := scrape_batch sid max_posts archive now
                (mark_processed sm pd.id sid now) (processed_count + 1) rest
              (r.1, r.2.1, pd :: r.2.2)
            else
              let r := scrape_batch sid max_posts archive now
                (increment_failed sm sid) processed_count rest
              (r.1, r.2.1, pd :: r.2.2)

/-- Bump the two per-session counters — the statement-side shape of what
a run of `mark_processed`/`increment_failed` calls does to the session
record. -/
def bumpCounters (dp df : Nat) (s : Session) : Session :=
  { s with total_processed := s.total_processed + dp, total_failed := s.total_failed + df }

lemma updateFirst_id (p : Session → Bool) (l : List Session) :
    updateFirst p (fun s => s) l = l := by
  induction l with
  | nil => rfl
  | cons s rest ih => by_cases hs : p s <;> simp [updateFirst, hs, ih]

lemma updateFirst_comp (p : Session → Bool) (f g : Session → Session) (l : List Session)
    (hg : ∀ s, p (g s) = p s) :
    updateFirst p f (updateFirst p g l) = updateFirst p (fun s => f (g s)) l := by
  induction l with
  | nil => rfl
  | cons s rest ih =>
      by_cases hs : p s
      · simp [updateFirst, hs, hg s]
      · simp [updateFirst, hs, hg s, ih]

lemma mark_processed_new_state (sm : SM) (fp sid : String) (now : DateTime)
    (h : is_processed sm.state fp = false) :
    (mark_processed sm fp sid now).state =
      { version := sm.state.version
        sessions := updateFirst (fun s => s.session_id == sid)
          (fun s => { s with total_processed := s.total_processed + 1 }) sm.state.sessions
        processed_post_ids := sm.state.processed_post_ids ++
          [{ id := fp, processed_at := isoformat now, session_id := sid }]
        total_all_time := sm.state.total_all_time + 1 } := by
  have h' : ¬ is_processed sm.state fp = true := by simp [h]
  simp [mark_processed, if_neg h', save]

lemma is_processed_mark_ne (sm : SM) (fp sid x : String) (now : DateTime) (hne : x ≠ fp) :
    is_processed (mark_processed sm fp sid now).state x = is_processed sm.state x := by
  by_cases h : is_processed sm.state fp
  · rw [mark_processed_of_processed sm fp sid now h]
  · have hf : is_processed sm.state fp = false := by simpa using h
    rw [mark_processed_new_state sm fp sid now hf]
    have hbx : (fp == x) = false := beq_eq_false_iff_ne.mpr (Ne.symm hne)
    simp [is_processed, List.any_append, hbx]

lemma scrape_batch_cons_success (sid : String) (max_posts : Nat) (archive : PostData → Bool)
    (now : DateTime) (sm : SM) (c : Nat) (pd : PostData) (ps : List (Option PostData))
    (hc : c < max_posts) (hfr : is_processed sm.state pd.id = false)
    (ha : archive pd = true) :
    scrape_batch sid max_posts archive now sm c (some pd :: ps) =
      ((scrape_batch sid max_posts archive now
          (mark_processed sm pd.id sid now) (c + 1) ps).1,
       (scrape_batch sid max_posts archive now
          (mark_processed sm pd.id sid now) (c + 1) ps).2.1,
       pd :: (scrape_batch sid max_posts archive now
          (mark_processed sm pd.id sid now) (c + 1) ps).2.2) := by
  have h1 : ¬ c ≥ max_posts := by omega
  simp [scrape_batch, h1, hfr, ha]

lemma scrape_batch_cons_failure (sid : String) (max_posts : Nat) (archive : PostData → Bool)
    (now : DateTime) (sm : SM) (c : Nat) (pd : PostData) (ps : List (Option PostData))
    (hc : c < max_posts) (hfr : is_processed sm.state pd.id = false)
    (ha : archive pd = false) :
    scrape_batch sid max_posts archive now sm c (some pd :: ps) =
      ((scrape_batch sid max_posts archive now (increment_failed sm sid) c ps).1,
       (scrape_batch sid max_posts archive now (increment_failed sm sid) c ps).2.1,
       pd :: (scrape_batch sid max_posts archive now (increment_failed sm sid) c ps).2.2) := by
  have h1 : ¬ c ≥ max_posts := by omega
  simp [scrape_batch, h1, hfr, ha]

/-- Full characterization of one batch pass over fresh, pairwise-distinct
items within the `max_posts` budget: every item is attempted, the
successfully archived ones (in order) become processed records,
`total_all_time` and `processed_count` grow by the success count, and the
owning session's counters absorb one bump per success / per failure. -/
lemma scrape_batch_fresh_batch (sid : String) (max_posts : Nat) (archive : PostData → Bool)
    (now : DateTime) :
    ∀ (items : List PostData) (sm : SM) (c0 : Nat),
      (∀ pd ∈ items, is_processed sm.state pd.id = false) →
      ((items.map PostData.id).Nodup) →
      c0 + items.length ≤ max_posts →
      (scrape_batch sid max_posts archive now sm c0 (items.map some)).2.2 = items ∧
        (scrape_batch sid max_posts archive now sm c0 (items.map some)).2.1 =
          c0 + (items.filter archive).length ∧
        (scrape_batch sid max_posts archive now sm c0 (items.map some)).1.state.processed_post_ids =
          sm.state.processed_post_ids ++ (items.filter archive).map
            (fun pd => { id := pd.id, processed_at := isoformat now, session_id := sid }) ∧
        (scrape_batch sid max_posts archive now sm c0 (items.map some)).1.state.total_all_time =
          sm.state.total_all_time + (items.filter archive).length ∧
        (scrape_batch sid max_posts archive now sm c0 (items.map some)).1.state.sessions =
          updateFirst (fun s => s.session_id == sid)
            (bumpCounters (items.filter archive).length
              (items.filter (fun pd => !(archive pd))).length)
            sm.state.sessions := by
  intro items
  induction items with
  | nil =>
      intro sm c0 hfresh hnodup hbud
      refine ⟨rfl, by simp [scrape_batch], by simp [scrape_batch], by simp [scrape_batch], ?_⟩
      have hb : bumpCounters 0 0 = fun s => s := funext fun s => by
        cases s
        simp [bumpCounters]
      simp only [List.filter_nil, List.length_nil, hb, updateFirst_id, List.map_nil]
      rfl
  | cons pd rest ih =>
      intro sm c0 hfresh hnodup hbud
      have hfr : is_processed sm.state pd.id = false := hfresh pd (by simp)
      have hlen : (pd :: rest).length = rest.length + 1 := by simp
      have hc : c0 < max_posts := by
        rw [hlen] at hbud
        omega
      have hpdnotin : pd.id ∉ rest.map PostData.id := by
        rw [List.map_cons, List.nodup_cons] at hnodup
        exact hnodup.1
      have hnodup' : (rest.map PostData.id).Nodup := by
        rw [List.map_cons, List.nodup_cons] at hnodup
        exact hnodup.2
      have hne : ∀ q ∈ rest, q.id ≠ pd.id := by
        intro q hq heq
        exact hpdnotin (heq ▸ List.mem_map_of_mem PostData.id hq)
      have hfreshrest : ∀ q ∈ rest, is_processed sm.state q.id = false := by
        intro q hq
        exact hfresh q (List.mem_cons_of_mem pd hq)
      by_cases ha : archive pd = true
      · have hstep := scrape_batch_cons_success sid max_posts archive now sm c0 pd
          (rest.map some) hc hfr ha
        have hfresh1 : ∀ q ∈ rest,
            is_processed (mark_processed sm pd.id sid now).state q.id = false := by
          intro q hq
          rw [is_processed_mark_ne sm pd.id sid q.id now (hne q hq)]
          exact hfreshrest q hq
        have hbud1 : (c0 + 1) + rest.length ≤ max_posts := by
          rw [hlen] at hbud
          omega
        obtain ⟨ih1, ih2, ih3, ih4, ih5⟩ :=
          ih (mark_processed sm pd.id sid now) (c0 + 1) hfresh1 hnodup' hbud1
        have hst := mark_processed_new_state sm pd.id sid now hfr
        have hfilt : (pd :: rest).filter archive = pd :: rest.filter archive := by
          simp [List.filter_cons, ha]
        have hfiltn : (pd :: rest).filter (fun q => !(archive q)) =
            rest.filter (fun q => !(archive q)) := by
          simp [List.filter_cons, ha]
        rw [List.map_cons, hstep]
        refine ⟨by rw [ih1], ?_, ?_, ?_, ?_⟩
        · rw [ih2, hfilt]
          simp
          omega
        · rw [ih3, hst, hfilt]
          simp [List.append_assoc]
        · rw [ih4, hst, hfilt]
          simp
          omega
        · rw [ih5, hst, hfilt, hfiltn,
            updateFirst_comp (fun s => s.session_id == sid)
              (bumpCounters (rest.filter archive).length
                (rest.filter (fun q => !(archive q))).length)
              (fun s => { s with total_processed := s.total_processed + 1 })
              sm.state.sessions (fun s => rfl)]
          have hfun : (fun s => bumpCounters (rest.filter archive).length
                (rest.filter (fun q => !(archive q))).length
                { s with total_processed := s.total_processed + 1 }) =
              bumpCounters (pd :: rest.filter archive).length
                (rest.filter (fun q => !(archive q))).length := by
            funext s
            cases s
            simp [bumpCounters]
            omega
          rw [hfun]
      · have ha' : archive pd = false := by simpa using ha
        have hstep := scrape_batch_cons_failure sid max_posts archive now sm c0 pd
          (rest.map some) hc hfr ha'
        have hfresh1 : ∀ q ∈ rest,
            is_processed (increment_failed sm sid).state q.id = false := by
          intro q hq
          exact hfreshrest q hq
        have hbud1 : c0 + rest.length ≤ max_posts := by
          rw [hlen] at hbud
          omega
        obtain ⟨ih1, ih2, ih3, ih4, ih5⟩ :=
          ih (increment_failed sm sid) c0 hfresh1 hnodup' hbud1
        have hfilt : (pd :: rest).filter archive = rest.filter archive := by
          simp [List.filter_cons, ha']
        have hfiltn : (pd :: rest).filter (fun q => !(archive q)) =
            pd :: rest.filter (fun q => !(archive q)) := by
          simp [List.filter_cons, ha']
        rw [List.map_cons, hstep]
        refine ⟨by rw [ih1], by rw [ih2, hfilt], ?_, ?_, ?_⟩
        · rw [ih3, hfilt]
          rfl
        · rw [ih4, hfilt]
          rfl
        · rw [ih5, hfilt, hfiltn]
          have hmid : (increment_failed sm sid).state.sessions =
              updateFirst (fun s => s.session_id == sid)
                (fun s => { s with total_failed := s.total_failed + 1 })
                sm.state.sessions := rfl
          rw [hmid, updateFirst_comp (fun s => s.session_id == sid)
            (bumpCounters (rest.filter archive).length
              (rest.filter (fun q => !(archive q))).length)
            (fun s => { s with total_failed := s.total_failed + 1 })
            sm.state.sessions (fun s => rfl)]
          have hfun : (fun s => bumpCounters (rest.filter archive).length
                (rest.filter (fun q => !(archive q))).length
                { s with total_failed := s.total_failed + 1 }) =
              bumpCounters (rest.filter archive).length
                (pd :: rest.filter (fun q => !(archive q))).length := by
            funext s
            cases s
            simp [bumpCounters]
            omega
          rw [hfun]

/-- C5: failure isolation in the batch loop.  For a batch of fresh,
pairwise-distinct items `pre ++ bad :: post` within the `max_posts`
budget where archiving `bad` fails and archiving every other item
succeeds, every item is attempted (none of `post` is skipped), exactly
the `pre ++ post` items produce processed records and count bumps, and
the owning session's `total_failed` is incremented exactly once. -/
theorem scrape_loop_failure_isolation (sm : SM) (sid : String) (max_posts c0 : Nat)
    (archive : PostData → Bool) (now : DateTime) (pre post : List PostData) (bad : PostData)
    (hfresh : ∀ pd ∈ pre ++ bad :: post, is_processed sm.state pd.id = false)
    (hnodup : ((pre ++ bad :: post).map PostData.id).Nodup)
    (hbudget : c0 + (pre ++ bad :: post).length ≤ max_posts)
    (hpre : ∀ pd ∈ pre, archive pd = true)
    (hbad : archive bad = false)
    (hpost : ∀ pd ∈ post, archive pd = true) :
    (scrape_batch sid max_posts archive now sm c0 ((pre ++ bad :: post).map some)).2.2 =
        pre ++ bad :: post ∧
      (scrape_batch sid max_posts archive now sm c0
          ((pre ++ bad :: post).map some)).1.state.processed_post_ids =
        sm.state.processed_post_ids ++ (pre ++ post).map
          (fun pd => { id := pd.id, processed_at := isoformat now, session_id := sid }) ∧
      (scrape_batch sid max_posts archive now sm c0
          ((pre ++ bad :: post).map some)).1.state.total_all_time =
        sm.state.total_all_time + (pre.length + post.length) ∧
      (scrape_batch sid max_posts archive now sm c0 ((pre ++ bad :: post).map some)).2.1 =
        c0 + (pre.length + post.length) ∧
      (scrape_batch sid max_posts archive now sm c0
          ((pre ++ bad :: post).map some)).1.state.sessions =
        updateFirst (fun s => s.session_id == sid)
          (bumpCounters (pre.length + post.length) 1) sm.state.sessions := by
  obtain ⟨h1, h2, h3, h4, h5⟩ :=
    scrape_batch_fresh_batch sid max_posts archive now (pre ++ bad :: post) sm c0
      hfresh hnodup hbudget
  have hfp : pre.filter archive = pre := List.filter_eq_self.mpr hpre
  have hfq : post.filter archive = post := List.filter_eq_self.mpr hpost
  have hfilter : (pre ++ bad :: post).filter archive = pre ++ post := by
    rw [List.filter_append, List.filter_cons, hfp, hfq]
    simp [hbad]
  have hnp : pre.filter (fun q => !(archive q)) = [] :=
    List.filter_eq_nil_iff.mpr fun a ha => by simp [hpre a ha]
  have hnq : post.filter (fun q => !(archive q)) = [] :=
    List.filter_eq_nil_iff.mpr fun a ha => by simp [hpost a ha]
  have hfiltern : (pre ++ bad :: post).filter (fun q => !(archive q)) = [bad] := by
    rw [List.filter_append, List.filter_cons, hnp, hnq]
    simp [hbad]
  have hlen : ((pre ++ post).length) = pre.length + post.length := by simp
  refine ⟨h1, ?_, ?_, ?_, ?_⟩
  · rw [h3, hfilter]
  · rw [h4, hfilter, hlen]
  · rw [h2, hfilter, hlen]
  · rw [h5, hfilter, hfiltern, hlen]
    rfl

def smBatch : SM := (start_session initSM tEarlier).1

def pdA : PostData := { id := "a1", text := "ta", url := "ua", timestamp := none }

def pdB : PostData := { id := "b2", text := "tb", url := "ub", timestamp := none }

def pdC : PostData := { id := "c3", text := "tc", url := "uc", timestamp := none }

def archiveNotB : PostData → Bool := fun pd => !(pd.id == "b2")

/-- Witness for C5: a concrete 3-item batch against the session started
at `tEarlier` in which only the middle item's archival fails — all three
are attempted, two records are appended, and the session's `total_failed`
is bumped exactly once. -/
theorem scrape_loop_failure_isolation_witness :
    (scrape_batch "20251020_183000" 500 archiveNotB tLater smBatch 0
        (([pdA] ++ pdB :: [pdC]).map some)).2.2 = [pdA] ++ pdB :: [pdC] ∧
      (scrape_batch "20251020_183000" 500 archiveNotB tLater smBatch 0
          (([pdA] ++ pdB :: [pdC]).map some)).1.state.processed_post_ids =
        smBatch.state.processed_post_ids ++ ([pdA] ++ [pdC]).map
          (fun pd => { id := pd.id, processed_at := isoformat tLater,
                       session_id := "20251020_183000" }) ∧
      (scrape_batch "20251020_183000" 500 archiveNotB tLater smBatch 0
          (([pdA] ++ pdB :: [pdC]).map some)).1.state.total_all_time =
        smBatch.state.total_all_time + ([pdA].length + [pdC].length) ∧
      (scrape_batch "20251020_183000" 500 archiveNotB tLater smBatch 0
          (([pdA] ++ pdB :: [pdC]).map some)).2.1 =
        0 + ([pdA].length + [pdC].length) ∧
      (scrape_batch "20251020_183000" 500 archiveNotB tLater smBatch 0
          (([pdA] ++ pdB :: [pdC]).map some)).1.state.sessions =
        updateFirst (fun s => s.session_id == "20251020_183000")
          (bumpCounters ([pdA].length + [pdC].length) 1) smBatch.state.sessions :=
  scrape_loop_failure_isolation smBatch "20251020_183000" 500 0 archiveNotB tLater
    [pdA] [pdC] pdB (by decide) (by decide) (by decide) (by decide) (by decide) (by decide)

end Scraper
